import Mathlib

/-!
Verification of the shopify-yahoo-cv-sync repository against its
natural-language specification.

The development shallowly embeds the four core components of the source:

* the proof-of-work routines of the client web pixel
  (`extensions/yahoo-ad-cv-web-pixel/src/index.ts`, function `makePow`) and of
  the ingestion gateway (`app/routes/api.setConversion/route.ts`, function
  `checkPow`);
* the ingestion gateway request handler (`action` and `loader` of
  `app/routes/api.setConversion/route.ts`) together with the database state
  it mutates (tables `PixelNonce` and `YahooConversion` of the Prisma
  schema);
* the key rotation task (`app/batch/tasks/generatePublicKey.ts`) and the
  private-key lookup (`getPrivateKey` of the gateway route);
* the conversion exporter (`createCsvAndImportToYahoo`) and the token
  refresh helper (`getYahooAdToken`).

Platform builtins (SHA-256, base64, UUID generation, the HTTP fetch results
and the GraphQL order lookup results) are passed in as explicit oracle
functions; everything the repository itself computes is translated
faithfully from the source.
-/

/-! ### JavaScript number and string primitives used by the PoW code -/

/-- Decimal digit character, embedding the rendering of a JS number in
template literals such as the PoW seed string. Only called with d < 10. -/
def digitChar (d : Nat) : Char :=
  if d = 0 then '0' else if d = 1 then '1' else if d = 2 then '2'
  else if d = 3 then '3' else if d = 4 then '4' else if d = 5 then '5'
  else if d = 6 then '6' else if d = 7 then '7' else if d = 8 then '8'
  else '9'

/-- Reversed decimal digit list of a natural number, computed with explicit
fuel so that it reduces inside the kernel. With fuel at least n the result
is the little-endian digit list of n (empty for 0). -/
def natDigitsRevFuel : Nat → Nat → List Char
  | 0, _ => []
  | f + 1, n => if n = 0 then [] else digitChar (n % 10) :: natDigitsRevFuel f (n / 10)

/-- Decimal rendering of a natural number as a character list, embedding the
JS conversion of a number to a string. -/
def natDigits (n : Nat) : List Char :=
  if n = 0 then [digitChar 0] else (natDigitsRevFuel n n).reverse

/-- Numeric value of a decimal digit character. -/
def digitVal (c : Char) : Nat := c.toNat - 48

/-- Value of a big-endian decimal digit list. -/
def digitsVal (cs : List Char) : Nat := cs.foldl (fun a c => 10 * a + digitVal c) 0

/-- Embedding of JS parseInt(s, 10) restricted to the non-negative case: the
longest digit prefix is evaluated, and the NaN outcome (no leading digit) is
represented by none. -/
def parseIntDec (cs : List Char) : Option Nat :=
  let ds := cs.takeWhile Char.isDigit
  if ds.isEmpty then none else some (digitsVal ds)

/-- Embedding of data.split(":")[0]: the segment of the string before the
first colon. -/
def splitColonHead (cs : List Char) : List Char :=
  cs.takeWhile (fun c => c ≠ ':')

/-! ### The shared leading-zero-bit counting rule

Both sides iterate over the SHA-256 digest bytes, add
Math.clz32(byte) - 24 for each byte and stop at the first byte that is not
entirely zero. Math.clz32(b) - 24 for a byte value b is rendered by
explicit threshold comparisons so that it evaluates in the kernel. -/

/-- Embedding of Math.clz32(b) - 24 for a byte value b < 256. -/
def clz32Byte (b : Nat) : Nat :=
  if 128 ≤ b then 0 else if 64 ≤ b then 1 else if 32 ≤ b then 2
  else if 16 ≤ b then 3 else if 8 ≤ b then 4 else if 4 ≤ b then 5
  else if 2 ≤ b then 6 else if 1 ≤ b then 7 else 8

/-- Leading-zero-bit count of the client pixel, translated from the loop in
makePow (extensions/yahoo-ad-cv-web-pixel/src/index.ts lines 102-107):
zeros += z with early break when z is not 8. -/
def powZerosPixel : List Nat → Nat
  | [] => 0
  | b :: rest =>
    let z := clz32Byte b
    if z = 8 then z + powZerosPixel rest else z

/-- Leading-zero-bit count of the gateway, translated from the loop in
checkPow (app/routes/api.setConversion/route.ts lines 30-35). -/
def powZerosRoute : List Nat → Nat
  | [] => 0
  | b :: rest =>
    let z := clz32Byte b
    if z = 8 then z + powZerosRoute rest else z

/-- PoW difficulty constant of the gateway (POW_BITS in route.ts). -/
def POW_BITS : Nat := 10

/-- PoW validity window in milliseconds (POW_VALID_MS in route.ts). -/
def POW_VALID_MS : Nat := 2 * 60000

/-- PoW difficulty constant of the pixel (DIFFICULTY in index.ts). -/
def DIFFICULTY : Nat := 10

/-- Seed string of the pixel PoW: unixMin, colon, random salt, colon. -/
def powSeed (unixMin : Nat) (rand16 : List Char) : List Char :=
  natDigits unixMin ++ [':'] ++ rand16 ++ [':']

/-- Candidate token string hashed by the pixel at a given counter:
seedStr + counter. -/
def powAttempt (unixMin : Nat) (rand16 : List Char) (counter : Nat) : List Char :=
  powSeed unixMin rand16 ++ natDigits counter

/-- Acceptance condition of the pixel brute-force loop at a given counter:
the digest of the candidate has at least DIFFICULTY leading zero bits. -/
def powAccepts (sha : List Char → List Nat) (unixMin : Nat) (rand16 : List Char)
    (counter : Nat) : Prop :=
  DIFFICULTY ≤ powZerosPixel (sha (powAttempt unixMin rand16 counter))

instance (sha : List Char → List Nat) (unixMin : Nat) (rand16 : List Char)
    (counter : Nat) : Decidable (powAccepts sha unixMin rand16 counter) := by
  unfold powAccepts; infer_instance

/-- Embedding of makePow of the pixel: the loop tries counters 0, 1, 2, ...
and returns btoa(seedStr + counter) for the first counter whose digest meets
the difficulty; the base64 encoder btoa and SHA-256 are platform builtins
passed as the arguments enc64 and sha. -/
def makePow (sha : List Char → List Nat) (enc64 : List Char → List Char)
    (unixMin : Nat) (rand16 : List Char)
    (hex : ∃ c, powAccepts sha unixMin rand16 c) : List Char :=
  enc64 (powAttempt unixMin rand16 (Nat.find hex))

/-- Embedding of checkPow of the gateway route. The base64 decoder
(Buffer.from(b64, "base64").toString("utf8")) and SHA-256 are platform
builtins passed as dec64 and sha, and now is Date.now() in milliseconds.
The steps are exactly those of the source: null header rejected, decode,
take the segment before the first colon, parseInt (NaN rejected), reject
when the absolute distance of now from unixMin minutes exceeds
POW_VALID_MS, else recount the digest zeros and compare with POW_BITS. -/
def checkPow (sha : List Char → List Nat) (dec64 : List Char → List Char)
    (now : Nat) : Option (List Char) → Bool
  | none => false
  | some b64 =>
    let data := dec64 b64
    match parseIntDec (splitColonHead data) with
    | none => false
    | some unixMin =>
      let minTime := unixMin * 60000
      if POW_VALID_MS < ((now : Int) - (minTime : Int)).natAbs then false
      else decide (POW_BITS ≤ powZerosRoute (sha data))

/-! ### Digit helper lemmas -/

theorem digitVal_digitChar {d : Nat} (h : d < 10) : digitVal (digitChar d) = d := by
  interval_cases d <;> decide

theorem isDigit_digitChar {d : Nat} (h : d < 10) : (digitChar d).isDigit = true := by
  interval_cases d <;> decide

theorem digitChar_ne_colon {d : Nat} (h : d < 10) : digitChar d ≠ ':' := by
  interval_cases d <;> decide

theorem natDigitsRevFuel_fuel {f g n : Nat} (hf : n ≤ f) (hg : n ≤ g) :
    natDigitsRevFuel f n = natDigitsRevFuel g n := by
  induction f generalizing g n with
  | zero =>
    interval_cases n
    cases g <;> simp [natDigitsRevFuel]
  | succ f ih =>
    cases g with
    | zero =>
      interval_cases n
      simp [natDigitsRevFuel]
    | succ g =>
      by_cases hn : n = 0
      · simp [natDigitsRevFuel, hn]
      · have hlt : n / 10 < n := Nat.div_lt_self (Nat.pos_of_ne_zero hn) (by omega)
        have h1 : n / 10 ≤ f := by omega
        have h2 : n / 10 ≤ g := by omega
        simp only [natDigitsRevFuel, hn, if_false]
        rw [ih h1 h2]

theorem mem_natDigitsRevFuel {f n : Nat} {c : Char} (hf : n ≤ f)
    (hc : c ∈ natDigitsRevFuel f n) : ∃ d, d < 10 ∧ c = digitChar d := by
  induction f generalizing n with
  | zero => simp [natDigitsRevFuel] at hc
  | succ f ih =>
    by_cases hn : n = 0
    · simp [natDigitsRevFuel, hn] at hc
    · simp only [natDigitsRevFuel, hn, if_false, List.mem_cons] at hc
      rcases hc with hc | hc
      · exact ⟨n % 10, Nat.mod_lt _ (by omega), hc⟩
      · have hlt : n / 10 < n := Nat.div_lt_self (Nat.pos_of_ne_zero hn) (by omega)
        exact ih (by omega) hc

theorem valRev_natDigitsRevFuel {f n : Nat} (hf : n ≤ f) :
    List.foldr (fun c a => 10 * a + digitVal c) 0 (natDigitsRevFuel f n) = n := by
  induction f generalizing n with
  | zero =>
    interval_cases n
    simp [natDigitsRevFuel]
  | succ f ih =>
    by_cases hn : n = 0
    · simp [natDigitsRevFuel, hn]
    · have hlt : n / 10 < n := Nat.div_lt_self (Nat.pos_of_ne_zero hn) (by omega)
      simp only [natDigitsRevFuel, hn, if_false, List.foldr_cons]
      rw [ih (by omega)]
      rw [digitVal_digitChar (Nat.mod_lt _ (by omega))]
      omega

theorem digitsVal_natDigits (n : Nat) : digitsVal (natDigits n) = n := by
  by_cases hn : n = 0
  · subst hn; decide
  · unfold natDigits digitsVal
    simp only [hn, if_false, List.foldl_reverse]
    have := valRev_natDigitsRevFuel (f := n) (n := n) (Nat.le_refl n)
    convert this using 2

theorem natDigits_all_digits {n : Nat} {c : Char} (hc : c ∈ natDigits n) :
    ∃ d, d < 10 ∧ c = digitChar d := by
  unfold natDigits at hc
  by_cases hn : n = 0
  · simp [hn] at hc
    exact ⟨0, by omega, hc⟩
  · simp only [hn, if_false, List.mem_reverse] at hc
    exact mem_natDigitsRevFuel (Nat.le_refl n) hc

theorem natDigits_injective : Function.Injective natDigits := by
  intro a b hab
  have ha := digitsVal_natDigits a
  have hb := digitsVal_natDigits b
  rw [hab] at ha
  omega

theorem takeWhile_append_stop {p : Char → Bool} {l : List Char}
    (hl : ∀ c ∈ l, p c = true) {c : Char} (hc : p c = false) (r : List Char) :
    (l ++ c :: r).takeWhile p = l := by
  induction l with
  | nil => simp [List.takeWhile, hc]
  | cons x xs ih =>
    have hx := hl x (by simp)
    simp only [List.cons_append, List.takeWhile_cons, hx, if_true]
    rw [ih (fun d hd => hl d (by simp [hd]))]

theorem splitColonHead_powAttempt (unixMin : Nat) (rand16 : List Char) (counter : Nat) :
    splitColonHead (powAttempt unixMin rand16 counter) = natDigits unixMin := by
  unfold splitColonHead powAttempt powSeed
  simp only [List.append_assoc, List.singleton_append, List.cons_append]
  apply takeWhile_append_stop
  · intro c hc
    rcases natDigits_all_digits hc with ⟨d, hd, rfl⟩
    exact decide_eq_true (digitChar_ne_colon hd)
  · decide

theorem parseIntDec_natDigits (n : Nat) : parseIntDec (natDigits n) = some n := by
  unfold parseIntDec
  have hall : natDigits n = (natDigits n).takeWhile Char.isDigit := by
    rw [List.takeWhile_eq_self_iff.mpr]
    intro c hc
    rcases natDigits_all_digits hc with ⟨d, hd, rfl⟩
    exact isDigit_digitChar hd
  rw [← hall]
  have hne : natDigits n ≠ [] := by
    unfold natDigits
    by_cases hn : n = 0
    · simp [hn]
    · simp only [hn, if_false]
      intro hcon
      have := valRev_natDigitsRevFuel (f := n) (n := n) (Nat.le_refl n)
      rw [List.reverse_eq_nil_iff.mp hcon] at this
      simp at this
      omega
  simp only [List.isEmpty_iff, hne, if_false]
  rw [digitsVal_natDigits]

theorem powZeros_agree (l : List Nat) : powZerosPixel l = powZerosRoute l := by
  induction l with
  | nil => rfl
  | cons b rest ih =>
    unfold powZerosPixel powZerosRoute
    by_cases h : clz32Byte b = 8 <;> simp [h, ih]

/-! ### Claim C2: client PoW generation verifies server-side -/

/-- C2: for every token produced by the client proof-of-work routine (seed
"minuteTimestamp:randomSalt:" plus the first counter whose SHA-256 digest
has at least 10 leading zero bits, counted as the sum of full leading-zero
bytes plus the count of the first non-full byte, then base64-encoded), the
server verification routine, applied at a time within the validity window
of the embedded minute timestamp, returns true: generation and verification
use the same byte-for-byte counting rule and threshold 10. The base64 pair
and SHA-256 are platform builtins shared by both sides, passed as enc64,
dec64 and sha with the round-trip law as the only assumption about them. -/
theorem makePow_token_verifies
    (sha : List Char → List Nat) (enc64 dec64 : List Char → List Char)
    (unixMin now : Nat) (rand16 : List Char)
    (hinv : ∀ cs, dec64 (enc64 cs) = cs)
    (hex : ∃ c, powAccepts sha unixMin rand16 c)
    (hwin : ((now : Int) - ((unixMin * 60000 : Nat) : Int)).natAbs ≤ POW_VALID_MS) :
    checkPow sha dec64 now (some (makePow sha enc64 unixMin rand16 hex)) = true := by
  unfold makePow
  simp only [checkPow]
  rw [hinv, splitColonHead_powAttempt, parseIntDec_natDigits]
  have hle : ¬ POW_VALID_MS < ((now : Int) - ((unixMin * 60000 : Nat) : Int)).natAbs := by
    omega
  simp only [hle, if_false]
  have hacc := Nat.find_spec hex
  unfold powAccepts at hacc
  rw [← powZeros_agree]
  exact decide_eq_true hacc

/-- Witness for C2 at a concrete instantiation: identity base64 pair, a
digest oracle returning bytes 0 and 32 (8 + 2 = 10 leading zero bits),
minute timestamp 1 verified at millisecond time 60000. -/
theorem makePow_token_verifies_witness :
    checkPow (fun _ => [0, 32]) id 60000
      (some (makePow (fun _ => [0, 32]) id 1 [] ⟨0, by decide⟩)) = true :=
  makePow_token_verifies (fun _ => [0, 32]) id id 1 60000 []
    (fun _ => rfl) ⟨0, by decide⟩ (by decide)

/-! ### The ingestion gateway model

The request handler of app/routes/api.setConversion/route.ts is embedded as
a decision function over the request, an oracle environment (time, crypto
builtins, database session and key rows, order lookup responses) and the
mutable database state (tables PixelNonce and YahooConversion). Effects
that can throw inside the try block and are caught by the outer handler
(decodeProtectedHeader, compactDecrypt, JSON.parse) are represented as
Option-valued request attributes whose none case maps to the 500 branch. -/

/-- Session row of the Prisma Session table, as cached by getSession. -/
structure SessionCache where
  shop : String
  accessToken : String
  primaryDomain : Option String
deriving DecidableEq

/-- Protected header of the compact JWE message, as returned by
decodeProtectedHeader: the kid field may be absent. -/
structure JoseHeader where
  kid : Option String
  alg : String
deriving DecidableEq

/-- JSON value shape distinguishing exactly what the payload validation of
the route observes with typeof: string, number, or anything else. -/
inductive JsonVal where
  | jstr (s : String)
  | jnum (n : Int)
  | jother
deriving DecidableEq

/-- Result of destructuring the parsed plaintext in the route: each of the
six fields is absent (undefined) or a JSON value. -/
structure RawPayload where
  yclid : Option JsonVal
  visitedAt : Option JsonVal
  conversionedAt : Option JsonVal
  amount : Option JsonVal
  orderId : Option JsonVal
  nonce : Option JsonVal
deriving DecidableEq

/-- Validated payload after the typeof checks of route.ts lines 196-204. -/
structure Payload where
  yclid : String
  visitedAt : String
  conversionedAt : String
  amount : Int
  orderId : String
  nonce : String
deriving DecidableEq

/-- Embedding of the typeof validation: every field must be present with
the primitive type required at route.ts lines 196-204. -/
def validatePayload (p : RawPayload) : Option Payload :=
  match p.yclid, p.visitedAt, p.conversionedAt, p.amount, p.orderId, p.nonce with
  | some (.jstr y), some (.jstr v), some (.jstr c), some (.jnum a),
    some (.jstr o), some (.jstr n) => some ⟨y, v, c, a, o, n⟩
  | _, _, _, _, _, _ => none

/-- Row of the YahooConversion table; yclid is the primary key and orderId
carries no uniqueness constraint (prisma migration, part_001 lines 59-66). -/
structure Conv where
  yclid : String
  orderId : String
deriving DecidableEq

/-- Database state seen by the gateway: PixelNonce rows (primary key
nonce) and YahooConversion rows. -/
structure Db where
  nonces : List String
  convs : List Conv
deriving DecidableEq

/-- Embedding of the transaction at route.ts lines 206-212: insert the
nonce and look up an existing conversion with the same orderId in one
transaction. A P2002 unique violation on the nonce rolls the transaction
back and is mapped to the duplicate outcome; otherwise the nonce row is
committed and the findFirst result is the duplicate flag. Returns the new
database state and whether the request is treated as duplicate. -/
def txStep (db : Db) (nonce orderId : String) : Db × Bool :=
  if db.nonces.contains nonce then (db, true)
  else ({ db with nonces := nonce :: db.nonces },
        db.convs.any (fun c => c.orderId == orderId))

/-- Embedding of db.yahooConversion.create at route.ts lines 248-252: the
insert fails (caught and mapped to error 12) when the yclid primary key
already exists or when the database throws for another reason
(persistThrows oracle). Returns the new state and whether it succeeded. -/
def persistStep (db : Db) (c : Conv) (persistThrows : Bool) : Db × Bool :=
  if persistThrows || db.convs.any (fun c0 => c0.yclid == c.yclid) then (db, false)
  else ({ db with convs := c :: db.convs }, true)

/-- Outcome of one admin.request order query: the order object with its
createdAt timestamp in milliseconds, a response without an order, or a
thrown transport error. -/
inductive OrderLookup where
  | found (createdAtMs : Int)
  | notFound
  | threw
deriving DecidableEq

/-- Oracle environment of one gateway request. -/
structure GatewayEnv where
  nowMs : Nat
  sha : List Char → List Nat
  dec64 : List Char → List Char
  session : Option SessionCache
  privateKeyFor : String → Option String
  orderLookup1 : OrderLookup
  orderLookup2 : OrderLookup
  persistThrows : Bool

/-- Request attributes of one gateway invocation. The header and decrypted
fields are none exactly when decodeProtectedHeader, compactDecrypt or
JSON.parse would throw, which the outer catch maps to status 500. -/
structure GatewayRequest where
  method : String
  powHeader : Option (List Char)
  bodyEmpty : Bool
  header : Option JoseHeader
  decrypted : Option RawPayload

/-- Terminal outcome of the request handler. -/
inductive GwResult where
  | ok
  | err (code : Nat)
  | preflight
  | internal
deriving DecidableEq

/-- Status line and error_code of the JSON response body. -/
structure HttpResponse where
  status : Nat
  errorCode : Option Nat
deriving DecidableEq

/-- Embedding of errorResponse (route.ts lines 138-141): status 405 with a
JSON body holding an error message and the numeric error_code. -/
def errorResponse (code : Nat) : HttpResponse :=
  { status := 405, errorCode := some code }

/-- HTTP responses produced for each outcome: 200 with result success, 405
via errorResponse, 204 for the CORS preflight, 500 from the outer catch. -/
def respond : GwResult → HttpResponse
  | .ok => { status := 200, errorCode := none }
  | .err c => errorResponse c
  | .preflight => { status := 204, errorCode := none }
  | .internal => { status := 500, errorCode := none }

/-- Embedding of the action handler of route.ts lines 172-265, check by
check in source order. In the order-verification block (lines 224-238) the
retry declares a new inner gqlRes constant, so after a successful retry the
code still reads order.createdAt from the OUTER response, whose order is
absent; that member access throws and the surrounding catch returns error
11. The found-on-retry case therefore maps to error 11 below, which is the
faithful translation of the shadowed variable, not a simplification. -/
def action (env : GatewayEnv) (req : GatewayRequest) (db : Db) : GwResult × Db :=
  if req.method ≠ "POST" then (.err 1, db)
  else if checkPow env.sha env.dec64 env.nowMs req.powHeader = false then (.err 2, db)
  else if req.bodyEmpty then (.err 3, db)
  else
    match req.header with
    | none => (.internal, db)
    | some h =>
      if h.alg ≠ "RSA-OAEP-256" then (.err 4, db)
      else if env.session.isNone then (.err 5, db)
      else if (match h.kid with
               | some k => env.privateKeyFor k
               | none => none).isNone then (.err 6, db)
      else
        match req.decrypted with
        | none => (.internal, db)
        | some raw =>
          match validatePayload raw with
          | none => (.err 7, db)
          | some p =>
            if (txStep db p.nonce p.orderId).2 then (.err 8, (txStep db p.nonce p.orderId).1)
            else
              match env.orderLookup1 with
              | .threw => (.err 11, (txStep db p.nonce p.orderId).1)
              | .notFound =>
                match env.orderLookup2 with
                | .threw => (.err 11, (txStep db p.nonce p.orderId).1)
                | .notFound => (.err 9, (txStep db p.nonce p.orderId).1)
                | .found _ => (.err 11, (txStep db p.nonce p.orderId).1)
              | .found createdAt =>
                if 2 * 60000 < (env.nowMs : Int) - createdAt then
                  (.err 10, (txStep db p.nonce p.orderId).1)
                else
                  if (persistStep (txStep db p.nonce p.orderId).1
                      ⟨p.yclid, p.orderId⟩ env.persistThrows).2 then
                    (.ok, (persistStep (txStep db p.nonce p.orderId).1
                      ⟨p.yclid, p.orderId⟩ env.persistThrows).1)
                  else
                    (.err 12, (persistStep (txStep db p.nonce p.orderId).1
                      ⟨p.yclid, p.orderId⟩ env.persistThrows).1)

/-- Embedding of the loader of route.ts lines 148-155: OPTIONS is answered
with the 204 preflight, any other non-POST method with errorResponse 0. -/
def loader (method : String) : GwResult :=
  if method = "OPTIONS" then .preflight else .err 0

/-! ### Claim C8: stale PoW timestamps are rejected with code 2 -/

theorem checkPow_stale_false (sha : List Char → List Nat)
    (dec64 : List Char → List Char) (now t : Nat) (rest tok : List Char)
    (hdata : dec64 tok = natDigits t ++ ':' :: rest)
    (hold : t * 60000 + POW_VALID_MS < now) :
    checkPow sha dec64 now (some tok) = false := by
  simp only [checkPow, hdata]
  have hsplit : splitColonHead (natDigits t ++ ':' :: rest) = natDigits t := by
    unfold splitColonHead
    apply takeWhile_append_stop
    · intro c hc
      rcases natDigits_all_digits hc with ⟨d, hd, rfl⟩
      exact decide_eq_true (digitChar_ne_colon hd)
    · decide
  rw [hsplit, parseIntDec_natDigits]
  have hgt : POW_VALID_MS < ((now : Int) - ((t * 60000 : Nat) : Int)).natAbs := by
    omega
  simp only [hgt, if_true]

/-- C8: a request whose PoW token carries an embedded minute timestamp
older than 2 minutes relative to the current time is rejected with error
code 2, even when the digest of the token meets the difficulty threshold
(hypothesis hdiff, which the proof never needs). -/
theorem stale_pow_rejected_code2
    (env : GatewayEnv) (req : GatewayRequest) (db : Db)
    (t : Nat) (rest tok : List Char)
    (hpost : req.method = "POST")
    (hhdr : req.powHeader = some tok)
    (hdata : env.dec64 tok = natDigits t ++ ':' :: rest)
    (hold : t * 60000 + POW_VALID_MS < env.nowMs)
    (hdiff : POW_BITS ≤ powZerosRoute (env.sha (env.dec64 tok))) :
    (action env req db).1 = .err 2 ∧
      respond (action env req db).1 = errorResponse 2 := by
  have hcp : checkPow env.sha env.dec64 env.nowMs req.powHeader = false := by
    rw [hhdr]
    exact checkPow_stale_false env.sha env.dec64 env.nowMs t rest tok hdata hold
  unfold action
  simp [hpost, hcp, respond]

/-- Gateway environment whose clock sits just past the validity window of a
token stamped at minute 1, with a digest oracle meeting the difficulty. -/
def staleEnv : GatewayEnv :=
  { nowMs := 180001, sha := fun _ => [0, 32], dec64 := id, session := none,
    privateKeyFor := fun _ => none, orderLookup1 := .notFound,
    orderLookup2 := .notFound, persistThrows := false }

/-- POST request carrying the stale token of minute 1. -/
def staleReq : GatewayRequest :=
  { method := "POST", powHeader := some (natDigits 1 ++ [':']),
    bodyEmpty := true, header := none, decrypted := none }

/-- Witness for C8 at the concrete stale request. -/
theorem stale_pow_rejected_code2_witness :
    (action staleEnv staleReq ⟨[], []⟩).1 = .err 2 ∧
      respond (action staleEnv staleReq ⟨[], []⟩).1 = errorResponse 2 :=
  stale_pow_rejected_code2 staleEnv staleReq ⟨[], []⟩ 1 [] (natDigits 1 ++ [':'])
    rfl rfl rfl (by decide) (by decide)

/-! ### Claim C3: the order-verification retry -/

/-- Environment in which the order is absent on the first lookup and found
fresh (created 1 second before now, well inside the 2-minute bound) on the
retry, with every other check passing. -/
def retryEnv : GatewayEnv :=
  { nowMs := 60000, sha := fun _ => [0, 32], dec64 := id,
    session := some ⟨"shop.example", "token", none⟩,
    privateKeyFor := fun _ => some "PKCS8", orderLookup1 := .notFound,
    orderLookup2 := .found 59000, persistThrows := false }

/-- Fully valid POST request: fresh PoW token of minute 1, non-empty body,
supported algorithm, and a payload passing every typeof check. -/
def validReq : GatewayRequest :=
  { method := "POST", powHeader := some (natDigits 1 ++ [':']),
    bodyEmpty := false, header := some ⟨some "kid1", "RSA-OAEP-256"⟩,
    decrypted := some ⟨some (.jstr "YSS.1.abc"), some (.jstr "visited"),
      some (.jstr "converted"), some (.jnum 1000), some (.jstr "123"),
      some (.jstr "n1")⟩ }

/-- C3 (code bug): a request whose order is found only on the retry lookup
and is within the freshness bound does NOT proceed to persistence: because
the retry result is bound to a shadowing inner constant, the handler then
reads order.createdAt from the outer response, which has no order, throws,
and returns error 11. No conversion is persisted (the database keeps only
the committed nonce row). The claim says this request succeeds. -/
theorem order_found_on_retry_returns_error11 :
    action retryEnv validReq ⟨[], []⟩ = (.err 11, ⟨["n1"], []⟩) ∧
      (action retryEnv validReq ⟨[], []⟩).1 ≠ .ok ∧
      (action retryEnv validReq ⟨[], []⟩).2.convs = [] := by
  refine ⟨?_, by decide, by decide⟩
  decide

/-! ### Claim C7: response code mapping of the gateway -/

/-- Private key resolution of one request: the value that
getPrivateKey(kid) yields in the route, from the header kid and the
cache-plus-ApiKeyPair lookup represented by the privateKeyFor oracle. -/
def resolvedKey (env : GatewayEnv) (req : GatewayRequest) : Option String :=
  match req.header with
  | some h => match h.kid with | some k => env.privateKeyFor k | none => none
  | none => none

/-- Decrypted and validated payload of one request, none when decryption
threw, parsing threw, or a typeof check failed. -/
def decryptedPayload (req : GatewayRequest) : Option Payload :=
  match req.decrypted with
  | some raw => validatePayload raw
  | none => none

/-- Checks 1 through 6 of the state machine all pass: POST, valid PoW,
non-empty body, decodable header with the supported algorithm, session
available, key available. -/
def passesPreChecks (env : GatewayEnv) (req : GatewayRequest) : Prop :=
  req.method = "POST" ∧
  checkPow env.sha env.dec64 env.nowMs req.powHeader = true ∧
  req.bodyEmpty = false ∧
  (∃ h, req.header = some h ∧ h.alg = "RSA-OAEP-256") ∧
  env.session.isSome = true ∧
  (resolvedKey env req).isSome = true

set_option maxHeartbeats 3200000 in
/-- C7: every rejection of the action handler is status 405 carrying a
numeric error_code between 1 and 12; the codes 1-8 are assigned exactly in
the order of the checks (non-POST, proof-of-work, empty body, unsupported
algorithm, session unavailable, key unavailable, payload shape, duplicate)
and 9-12 to the order-verification and persistence failures; acceptance is
status 200, the OPTIONS preflight is 204, and the branches in which a
library call throws inside the handler are status 500. -/
theorem gateway_response_code_mapping
    (env : GatewayEnv) (req : GatewayRequest) (db : Db) :
    (∀ c, (action env req db).1 = .err c →
      (1 ≤ c ∧ c ≤ 12) ∧ respond (action env req db).1 = errorResponse c ∧
      (errorResponse c).status = 405 ∧ (errorResponse c).errorCode = some c) ∧
    ((action env req db).1 = .ok →
      respond (action env req db).1 = ⟨200, none⟩) ∧
    ((action env req db).1 = .internal →
      respond (action env req db).1 = ⟨500, none⟩) ∧
    loader "OPTIONS" = .preflight ∧
    respond .preflight = ⟨204, none⟩ ∧
    ((action env req db).1 = .err 1 ↔ ¬ req.method = "POST") ∧
    ((action env req db).1 = .err 2 ↔ req.method = "POST" ∧
      checkPow env.sha env.dec64 env.nowMs req.powHeader = false) ∧
    ((action env req db).1 = .err 3 ↔ req.method = "POST" ∧
      checkPow env.sha env.dec64 env.nowMs req.powHeader = true ∧
      req.bodyEmpty = true) ∧
    ((action env req db).1 = .err 4 ↔ req.method = "POST" ∧
      checkPow env.sha env.dec64 env.nowMs req.powHeader = true ∧
      req.bodyEmpty = false ∧
      (∃ h, req.header = some h ∧ h.alg ≠ "RSA-OAEP-256")) ∧
    ((action env req db).1 = .err 5 ↔ req.method = "POST" ∧
      checkPow env.sha env.dec64 env.nowMs req.powHeader = true ∧
      req.bodyEmpty = false ∧
      (∃ h, req.header = some h ∧ h.alg = "RSA-OAEP-256") ∧
      env.session = none) ∧
    ((action env req db).1 = .err 6 ↔ req.method = "POST" ∧
      checkPow env.sha env.dec64 env.nowMs req.powHeader = true ∧
      req.bodyEmpty = false ∧
      (∃ h, req.header = some h ∧ h.alg = "RSA-OAEP-256") ∧
      env.session.isSome = true ∧ resolvedKey env req = none) ∧
    ((action env req db).1 = .err 7 ↔ passesPreChecks env req ∧
      (∃ raw, req.decrypted = some raw ∧ validatePayload raw = none)) ∧
    ((action env req db).1 = .err 8 ↔ passesPreChecks env req ∧
      (∃ p, decryptedPayload req = some p ∧
        (txStep db p.nonce p.orderId).2 = true)) ∧
    ((action env req db).1 = .err 9 ↔ passesPreChecks env req ∧
      (∃ p, decryptedPayload req = some p ∧
        (txStep db p.nonce p.orderId).2 = false) ∧
      env.orderLookup1 = .notFound ∧ env.orderLookup2 = .notFound) ∧
    ((action env req db).1 = .err 10 ↔ passesPreChecks env req ∧
      (∃ p, decryptedPayload req = some p ∧
        (txStep db p.nonce p.orderId).2 = false) ∧
      (∃ ts, env.orderLookup1 = .found ts ∧
        2 * 60000 < (env.nowMs : Int) - ts)) ∧
    ((action env req db).1 = .err 11 ↔ passesPreChecks env req ∧
      (∃ p, decryptedPayload req = some p ∧
        (txStep db p.nonce p.orderId).2 = false) ∧
      (env.orderLookup1 = .threw ∨
        (env.orderLookup1 = .notFound ∧ env.orderLookup2 = .threw) ∨
        (env.orderLookup1 = .notFound ∧ ∃ ts, env.orderLookup2 = .found ts))) ∧
    ((action env req db).1 = .err 12 ↔ passesPreChecks env req ∧
      (∃ p, decryptedPayload req = some p ∧
        (txStep db p.nonce p.orderId).2 = false ∧
        (∃ ts, env.orderLookup1 = .found ts ∧
          ¬ 2 * 60000 < (env.nowMs : Int) - ts ∧
          (persistStep (txStep db p.nonce p.orderId).1 ⟨p.yclid, p.orderId⟩
            env.persistThrows).2 = false))) ∧
    ((action env req db).1 = .ok ↔ passesPreChecks env req ∧
      (∃ p, decryptedPayload req = some p ∧
        (txStep db p.nonce p.orderId).2 = false ∧
        (∃ ts, env.orderLookup1 = .found ts ∧
          ¬ 2 * 60000 < (env.nowMs : Int) - ts ∧
          (persistStep (txStep db p.nonce p.orderId).1 ⟨p.yclid, p.orderId⟩
            env.persistThrows).2 = true))) := by
  refine ⟨?_, ?_, ?_, rfl, rfl, ?_, ?_, ?_, ?_, ?_, ?_, ?_, ?_, ?_, ?_, ?_, ?_, ?_⟩
  · intro c hc
    have hb : 1 ≤ c ∧ c ≤ 12 := by
      unfold action at hc
      (repeat' split at hc) <;> simp_all <;> omega
    exact ⟨hb, by rw [hc]; rfl, rfl, rfl⟩
  · intro h; rw [h]; rfl
  · intro h; rw [h]; rfl
  all_goals (
    unfold action
    (repeat' split) <;>
      simp_all [resolvedKey, decryptedPayload, passesPreChecks,
        Option.isSome_iff_ne_none] <;>
      (try (intros; exfalso; omega)))

/-- Witness for C7: the stale request is rejected with code 2; applying the
mapping theorem at that concrete request yields the 405 response shape. -/
theorem gateway_response_code_mapping_witness :
    (1 ≤ 2 ∧ 2 ≤ 12) ∧ respond (action staleEnv staleReq ⟨[], []⟩).1 = errorResponse 2 ∧
      (errorResponse 2).status = 405 ∧ (errorResponse 2).errorCode = some 2 :=
  (gateway_response_code_mapping staleEnv staleReq ⟨[], []⟩).1 2 (by decide)

/-! ### Claim C1: duplicate suppression under concurrent delivery

Concurrent requests are modelled as a small-step system: each request
executes the two database-touching parts of the accepted path as atomic
steps, txStep (the nonce-insert-plus-orderId-lookup transaction of step 6)
and persistStep (the YahooConversion insert of step 8), with arbitrary
interleaving between them. The order verification between the two steps
runs against the external order system, touches no gateway table, and is
assumed to pass (order found fresh on the first lookup) for every request
in this model. -/

/-- Data of one submission: its nonce, order identifier and click id. -/
structure ReqData where
  nonce : String
  orderId : String
  yclid : String
deriving DecidableEq

/-- Progress of one request through the gateway: before the transaction,
between transaction and persistence, accepted, or rejected with a code. -/
inductive RState where
  | pending
  | passedTx
  | accepted
  | rejected (code : Nat)
deriving DecidableEq

/-- One atomic step of a single request: the step-6 transaction when
pending (duplicate outcome maps to error 8), the step-8 insert when the
transaction has been passed (failure maps to error 12), and no change in a
terminal state. -/
def stepReq (d : ReqData) (st : RState) (db : Db) : RState × Db :=
  match st with
  | .pending =>
    if (txStep db d.nonce d.orderId).2 then
      (.rejected 8, (txStep db d.nonce d.orderId).1)
    else (.passedTx, (txStep db d.nonce d.orderId).1)
  | .passedTx =>
    if (persistStep db ⟨d.yclid, d.orderId⟩ false).2 then
      (.accepted, (persistStep db ⟨d.yclid, d.orderId⟩ false).1)
    else (.rejected 12, (persistStep db ⟨d.yclid, d.orderId⟩ false).1)
  | st => (st, db)

/-- Shared state of two concurrent requests and the database. -/
structure SysState where
  r1 : RState
  r2 : RState
  db : Db
deriving DecidableEq

/-- Scheduler step: true advances request 1, false advances request 2. -/
def sysStep (d1 d2 : ReqData) (s : SysState) : Bool → SysState
  | true =>
    { r1 := (stepReq d1 s.r1 s.db).1, r2 := s.r2, db := (stepReq d1 s.r1 s.db).2 }
  | false =>
    { r1 := s.r1, r2 := (stepReq d2 s.r2 s.db).1, db := (stepReq d2 s.r2 s.db).2 }

/-- Run a whole interleaving schedule. -/
def runSchedule (d1 d2 : ReqData) (sched : List Bool) (s : SysState) : SysState :=
  sched.foldl (sysStep d1 d2) s

/-- Both requests pending over the empty database. -/
def initSys : SysState := ⟨.pending, .pending, ⟨[], []⟩⟩

/-- C1 counterexample: two concurrent submissions with the same order
identifier 123 but distinct nonces and distinct click identifiers, under
the interleaving tx1, tx2, persist1, persist2, are BOTH accepted and leave
TWO persisted ConversionRecords with order identifier 123: the orderId
lookup of the transaction happens before either insert has committed, and
the YahooConversion table has no uniqueness constraint on orderId (its
primary key is yclid). The claim says at most one record is ever persisted
per order identifier and that exactly one of N parallel duplicate
submissions succeeds. -/
theorem concurrent_duplicate_orders_both_accepted :
    (runSchedule ⟨"n1", "123", "YSS.1.a"⟩ ⟨"n2", "123", "YSS.2.b"⟩
      [true, false, true, false] initSys).r1 = .accepted ∧
    (runSchedule ⟨"n1", "123", "YSS.1.a"⟩ ⟨"n2", "123", "YSS.2.b"⟩
      [true, false, true, false] initSys).r2 = .accepted ∧
    ((runSchedule ⟨"n1", "123", "YSS.1.a"⟩ ⟨"n2", "123", "YSS.2.b"⟩
      [true, false, true, false] initSys).db.convs.countP
        (fun c => c.orderId == "123")) = 2 := by
  decide

/-- A request that has passed the step-6 transaction or been accepted. -/
def ReqPassed (st : RState) : Prop := st = .passedTx ∨ st = .accepted

/-- Invariant tying transaction passage to committed nonce rows. -/
def NonceInv (d1 d2 : ReqData) (s : SysState) : Prop :=
  (ReqPassed s.r1 → d1.nonce ∈ s.db.nonces) ∧
  (ReqPassed s.r2 → d2.nonce ∈ s.db.nonces) ∧
  ¬(ReqPassed s.r1 ∧ ReqPassed s.r2)

theorem stepReq_keeps_nonce (d : ReqData) (st : RState) (db : Db) {n : String}
    (hn : n ∈ db.nonces) : n ∈ (stepReq d st db).2.nonces := by
  cases st <;> unfold stepReq txStep persistStep <;>
    (repeat' split) <;> simp_all

theorem stepReq_passed_cases (d : ReqData) (st : RState) (db : Db)
    (h : ReqPassed (stepReq d st db).1) :
    (st = .pending ∧ d.nonce ∉ db.nonces) ∨ ReqPassed st := by
  cases st <;> unfold stepReq txStep at h <;> (repeat' split at h) <;>
    simp_all [ReqPassed]

theorem stepReq_pending_adds (d : ReqData) (db : Db)
    (h : ReqPassed (stepReq d .pending db).1) :
    d.nonce ∈ (stepReq d .pending db).2.nonces := by
  unfold stepReq txStep at h ⊢
  (repeat' split) <;> simp_all [ReqPassed]

theorem nonceInv_step (d1 d2 : ReqData) (hn : d1.nonce = d2.nonce)
    (s : SysState) (i : Bool) (hinv : NonceInv d1 d2 s) :
    NonceInv d1 d2 (sysStep d1 d2 s i) := by
  obtain ⟨h1, h2, h3⟩ := hinv
  cases i
  · refine ⟨fun hp => ?_, fun hp => ?_, fun ⟨hp1, hp2⟩ => ?_⟩
    · simp only [sysStep] at hp ⊢
      exact stepReq_keeps_nonce d2 s.r2 s.db (h1 hp)
    · simp only [sysStep] at hp ⊢
      rcases stepReq_passed_cases d2 s.r2 s.db hp with ⟨hpend, hfresh⟩ | hold
      · rw [hpend]
        exact stepReq_pending_adds d2 s.db (hpend ▸ hp)
      · exact stepReq_keeps_nonce d2 s.r2 s.db (h2 hold)
    · simp only [sysStep] at hp1 hp2
      rcases stepReq_passed_cases d2 s.r2 s.db hp2 with ⟨hpend, hfresh⟩ | hold
      · exact hfresh (hn ▸ h1 hp1)
      · exact h3 ⟨hp1, hold⟩
  · refine ⟨fun hp => ?_, fun hp => ?_, fun ⟨hp1, hp2⟩ => ?_⟩
    · simp only [sysStep] at hp ⊢
      rcases stepReq_passed_cases d1 s.r1 s.db hp with ⟨hpend, hfresh⟩ | hold
      · rw [hpend]
        exact stepReq_pending_adds d1 s.db (hpend ▸ hp)
      · exact stepReq_keeps_nonce d1 s.r1 s.db (h1 hold)
    · simp only [sysStep] at hp ⊢
      exact stepReq_keeps_nonce d1 s.r1 s.db (h2 hp)
    · simp only [sysStep] at hp1 hp2
      rcases stepReq_passed_cases d1 s.r1 s.db hp1 with ⟨hpend, hfresh⟩ | hold
      · exact hfresh (hn ▸ h2 hp2)
      · exact h3 ⟨hold, hp2⟩

theorem nonceInv_run (d1 d2 : ReqData) (hn : d1.nonce = d2.nonce)
    (sched : List Bool) (s : SysState) (hinv : NonceInv d1 d2 s) :
    NonceInv d1 d2 (runSchedule d1 d2 sched s) := by
  induction sched generalizing s with
  | nil => exact hinv
  | cons i rest ih =>
    exact ih (sysStep d1 d2 s i) (nonceInv_step d1 d2 hn s i hinv)

/-- C1 amended: what the transaction of step 6 does guarantee. First, for
two concurrent submissions carrying the SAME nonce (an identical encrypted
message delivered twice), no interleaving lets both be accepted: the nonce
primary key makes the second transaction fail as duplicate. Second, a
submission arriving when a ConversionRecord with its order identifier is
already persisted is rejected as duplicate (error 8) by the findFirst
lookup inside the transaction: order-identifier dedup holds for
non-overlapping deliveries. Under concurrent delivery with distinct nonces
and distinct click identifiers, however, several records with the same
order identifier can be persisted (see the counterexample). -/
theorem nonce_dedup_and_sequential_order_dedup :
    (∀ (d1 d2 : ReqData) (sched : List Bool), d1.nonce = d2.nonce →
      ¬((runSchedule d1 d2 sched initSys).r1 = .accepted ∧
        (runSchedule d1 d2 sched initSys).r2 = .accepted)) ∧
    (∀ (db : Db) (d : ReqData), (∃ c ∈ db.convs, c.orderId = d.orderId) →
      (stepReq d .pending db).1 = .rejected 8) := by
  constructor
  · intro d1 d2 sched hn ⟨ha1, ha2⟩
    have hinv : NonceInv d1 d2 initSys := by
      refine ⟨?_, ?_, ?_⟩ <;> simp [initSys, ReqPassed]
    have := nonceInv_run d1 d2 hn sched initSys hinv
    exact this.2.2 ⟨Or.inr ha1, Or.inr ha2⟩
  · intro db d hex
    unfold stepReq txStep
    by_cases hc : d.nonce ∈ db.nonces
    · simp [hc]
    · have hany : db.convs.any (fun c => c.orderId == d.orderId) = true := by
        rcases hex with ⟨c, hc1, hc2⟩
        simp only [List.any_eq_true]
        exact ⟨c, hc1, by simp [hc2]⟩
      simp [hc, hany]

/-- Witness for C1 amended: the same-nonce conjunct at the interleaving of
the counterexample, and the sequential conjunct at a one-record database. -/
theorem nonce_dedup_and_sequential_order_dedup_witness :
    (¬((runSchedule ⟨"n1", "123", "YSS.1.a"⟩ ⟨"n1", "123", "YSS.2.b"⟩
        [true, false, true, false] initSys).r1 = .accepted ∧
      (runSchedule ⟨"n1", "123", "YSS.1.a"⟩ ⟨"n1", "123", "YSS.2.b"⟩
        [true, false, true, false] initSys).r2 = .accepted)) ∧
    (stepReq ⟨"n9", "123", "YSS.9.z"⟩ .pending ⟨[], [⟨"YSS.1.a", "123"⟩]⟩).1 =
      .rejected 8 :=
  ⟨nonce_dedup_and_sequential_order_dedup.1 ⟨"n1", "123", "YSS.1.a"⟩
      ⟨"n1", "123", "YSS.2.b"⟩ [true, false, true, false] rfl,
    nonce_dedup_and_sequential_order_dedup.2 ⟨[], [⟨"YSS.1.a", "123"⟩]⟩
      ⟨"n9", "123", "YSS.9.z"⟩ ⟨⟨"YSS.1.a", "123"⟩, by simp, rfl⟩⟩

/-! ### Key rotation (app/batch/tasks/generatePublicKey.ts) -/

/-- Row of the ApiKeyPair table: kid primary key, both key materials, and
the creation timestamp in milliseconds. -/
structure KeyPair where
  kid : String
  publicKey : String
  privateKey : String
  createdAt : Int
deriving DecidableEq

/-- Ordering used by findMany orderBy createdAt desc. -/
def rotGe (a b : KeyPair) : Prop := b.createdAt ≤ a.createdAt

instance : DecidableRel rotGe := fun a b => inferInstanceAs (Decidable (_ ≤ _))

instance : IsTotal KeyPair rotGe := ⟨fun a b => le_total b.createdAt a.createdAt⟩

instance : IsTrans KeyPair rotGe := ⟨fun _ _ _ h1 h2 => le_trans h2 h1⟩

/-- Embedding of findMany orderBy createdAt desc take 3 of
generatePublicKey.ts lines 64-67. -/
def findManyTop3 (rows : List KeyPair) : List KeyPair :=
  (List.insertionSort rotGe rows).take 3

/-- Rows remaining after the create plus deleteMany of lines 61-74: the new
key is inserted and every row whose kid is not among the three most
recently created is deleted. -/
def rotateStore (store : List KeyPair) (newKp : KeyPair) : List KeyPair :=
  (newKp :: store).filter
    (fun kp => ((findManyTop3 (newKp :: store)).map KeyPair.kid).contains kp.kid)

/-- Outcome of the Web Pixel settings push (webPixelUpdate): accepted,
rejected with userErrors in the response, or thrown transport error. -/
inductive PushResult where
  | ok
  | userErrors
  | threw
deriving DecidableEq

/-- Embedding of generatePublicKey: create and retention, then the pixel id
fetch (a missing pixel throws, caught into the false return, with no
deletion of the new key), then the settings push: userErrors delete the new
key and return false; a thrown push is caught into the false return with no
deletion; success returns true. -/
def generatePublicKey (store : List KeyPair) (newKp : KeyPair)
    (pixelFound : Bool) (push : PushResult) : List KeyPair × Bool :=
  match pixelFound with
  | false => (rotateStore store newKp, false)
  | true =>
    match push with
    | .userErrors =>
      ((rotateStore store newKp).filter (fun kp => kp.kid ≠ newKp.kid), false)
    | .threw => (rotateStore store newKp, false)
    | .ok => (rotateStore store newKp, true)

/-- Embedding of getPrivateKey of the gateway route (lines 78-94): return
the cache hit if present, otherwise the findUnique row by kid (none when
absent), whose imported private key material is returned and cached. -/
def getPrivateKey (cache : List (String × String)) (store : List KeyPair)
    (kid : String) : Option String :=
  match cache.lookup kid with
  | some k => some k
  | none =>
    match store.find? (fun kp => kp.kid == kid) with
    | none => none
    | some kp => some kp.privateKey

/-! ### Claim C5: rollback on push failure -/

/-- A fresh key pair used in the C5 counterexample. -/
def kpA : KeyPair := ⟨"kidA", "pubA", "privA", 1000⟩

/-- C5 counterexample: when the settings push THROWS (transport failure),
generatePublicKey signals failure but does NOT delete the freshly created
KeyPair: the rollback of lines 111-115 only runs when the response carries
userErrors, and the catch block returns false without touching the store.
The claim says that for every failing push, for any reason, the new
KeyPair is deleted before the invocation returns. -/
theorem push_throw_leaves_key :
    (generatePublicKey [] kpA true .threw).2 = false ∧
    kpA ∈ (generatePublicKey [] kpA true .threw).1 := by
  decide

/-- C5 amended: failure is signalled for every failing push, and the new
key is rolled back exactly when the push response reports userErrors; when
the push throws, or the Web Pixel id cannot be found, the invocation
returns false with the newly rotated store intact (the new key is left in
place). -/
theorem rollback_on_user_errors_only
    (store : List KeyPair) (newKp : KeyPair) (pixelFound : Bool)
    (push : PushResult) :
    ((generatePublicKey store newKp pixelFound push).2 = true ↔
      pixelFound = true ∧ push = .ok) ∧
    (push = .userErrors → pixelFound = true →
      newKp ∉ (generatePublicKey store newKp pixelFound push).1 ∧
      (generatePublicKey store newKp pixelFound push).2 = false) ∧
    ((push = .threw ∨ pixelFound = false) →
      (generatePublicKey store newKp pixelFound push).1 = rotateStore store newKp ∧
      (generatePublicKey store newKp pixelFound push).2 = false) := by
  refine ⟨?_, ?_, ?_⟩
  · cases pixelFound <;> cases push <;> simp [generatePublicKey]
  · rintro rfl rfl
    refine ⟨?_, rfl⟩
    intro hmem
    have := (List.mem_filter.mp hmem).2
    simp at this
  · rintro (rfl | rfl)
    · cases pixelFound <;> simp [generatePublicKey]
    · simp [generatePublicKey]

/-- Witness for C5 amended at the concrete key kpA with a userErrors push
and with a thrown push. -/
theorem rollback_on_user_errors_only_witness :
    (((generatePublicKey [] kpA true .userErrors).2 = true ↔
      true = true ∧ PushResult.userErrors = .ok) ∧
    (PushResult.userErrors = .userErrors → true = true →
      kpA ∉ (generatePublicKey [] kpA true .userErrors).1 ∧
      (generatePublicKey [] kpA true .userErrors).2 = false) ∧
    ((PushResult.userErrors = .threw ∨ true = false) →
      (generatePublicKey [] kpA true .userErrors).1 = rotateStore [] kpA ∧
      (generatePublicKey [] kpA true .userErrors).2 = false)) ∧
    kpA ∉ (generatePublicKey [] kpA true .userErrors).1 :=
  ⟨rollback_on_user_errors_only [] kpA true .userErrors,
    ((rollback_on_user_errors_only [] kpA true .userErrors).2.1 rfl rfl).1⟩

/-! ### Claim C6: retention of the three most recent keys -/

theorem pairwise_gt_of_sorted_nodup {l : List KeyPair}
    (hs : List.Sorted rotGe l) (hn : (l.map KeyPair.createdAt).Nodup) :
    List.Pairwise (fun a b => b.createdAt < a.createdAt) l := by
  have hne : List.Pairwise (fun a b => a.createdAt ≠ b.createdAt) l :=
    List.pairwise_map.mp hn
  exact (hs.and hne).imp (fun h => lt_of_le_of_ne h.1 (Ne.symm h.2))

theorem mem_take_of_countP_le {kp : KeyPair} {l : List KeyPair} {n : Nat}
    (hp : List.Pairwise (fun a b => b.createdAt < a.createdAt) l) (hm : kp ∈ l)
    (hc : l.countP (fun x => decide (kp.createdAt < x.createdAt)) ≤ n) :
    kp ∈ l.take (n + 1) := by
  induction l generalizing n with
  | nil => simp at hm
  | cons x xs ih =>
    rcases List.mem_cons.mp hm with rfl | hmx
    · simp [List.take_succ_cons]
    · have hx : kp.createdAt < x.createdAt := (List.pairwise_cons.mp hp).1 kp hmx
      rw [List.countP_cons] at hc
      simp [hx] at hc
      cases n with
      | zero => omega
      | succ n =>
        have htail := @ih n (List.pairwise_cons.mp hp).2 hmx (by omega)
        simp [List.take_succ_cons, htail]

theorem countP_le_of_mem_take {kp : KeyPair} {l : List KeyPair} {n : Nat}
    (hp : List.Pairwise (fun a b => b.createdAt < a.createdAt) l)
    (hm : kp ∈ l.take (n + 1)) :
    l.countP (fun x => decide (kp.createdAt < x.createdAt)) ≤ n := by
  induction l generalizing n with
  | nil => simp at hm
  | cons x xs ih =>
    rw [List.take_succ_cons] at hm
    rcases List.mem_cons.mp hm with rfl | hmx
    · have hzero : xs.countP (fun x => decide (kp.createdAt < x.createdAt)) = 0 := by
        rw [List.countP_eq_zero]
        intro a ha
        have := (List.pairwise_cons.mp hp).1 a ha
        simp
        omega
      rw [List.countP_cons]
      simp [hzero]
    · cases n with
      | zero => simp at hmx
      | succ n =>
        have htail := ih (List.pairwise_cons.mp hp).2 hmx
        rw [List.countP_cons]
        split <;> omega

theorem mem_eq_of_kid_nodup {l : List KeyPair}
    (hn : (l.map KeyPair.kid).Nodup) {a b : KeyPair}
    (ha : a ∈ l) (hb : b ∈ l) (hk : a.kid = b.kid) : a = b := by
  induction l with
  | nil => simp at ha
  | cons x xs ih =>
    simp only [List.map_cons, List.nodup_cons] at hn
    rcases List.mem_cons.mp ha with rfl | ha2 <;>
      rcases List.mem_cons.mp hb with rfl | hb2
    · rfl
    · exact absurd (hk ▸ List.mem_map_of_mem KeyPair.kid hb2) hn.1
    · exact absurd (hk ▸ List.mem_map_of_mem KeyPair.kid ha2) hn.1
    · exact ih hn.2 ha2 hb2

theorem find?_eq_of_kid_nodup {l : List KeyPair}
    (hn : (l.map KeyPair.kid).Nodup) {kp : KeyPair} (hm : kp ∈ l) :
    l.find? (fun x => x.kid == kp.kid) = some kp := by
  induction l with
  | nil => simp at hm
  | cons x xs ih =>
    simp only [List.map_cons, List.nodup_cons] at hn
    rcases List.mem_cons.mp hm with rfl | hm2
    · simp [List.find?]
    · have hne : x.kid ≠ kp.kid :=
        fun h => hn.1 (h ▸ List.mem_map_of_mem KeyPair.kid hm2)
      rw [List.find?_cons_of_neg _ (by simp [hne])]
      exact ih hn.2 hm2

/-- C6: after a successful rotation of generatePublicKey at most 3 key
pairs are retained; exactly the rows among the 3 most recently created ones
survive (a row survives if and only if at most 2 rows have a strictly later
creation time, which in particular retains the keys of the current and of
the two previous rotations); and the private key of every retained row is
still resolved by getPrivateKey through its kid, so messages encrypted
under it still decrypt. The hypotheses state the table invariants: kid is
the primary key and creation timestamps are pairwise distinct. -/
theorem rotation_retains_three_most_recent_resolvable
    (store : List KeyPair) (newKp : KeyPair)
    (hkid : ((newKp :: store).map KeyPair.kid).Nodup)
    (hts : ((newKp :: store).map KeyPair.createdAt).Nodup) :
    (generatePublicKey store newKp true .ok).2 = true ∧
    (generatePublicKey store newKp true .ok).1.length ≤ 3 ∧
    (∀ kp ∈ newKp :: store,
      (newKp :: store).countP (fun x => decide (kp.createdAt < x.createdAt)) ≤ 2 →
      kp ∈ (generatePublicKey store newKp true .ok).1) ∧
    (∀ kp ∈ (generatePublicKey store newKp true .ok).1,
      (newKp :: store).countP (fun x => decide (kp.createdAt < x.createdAt)) ≤ 2) ∧
    (∀ kp ∈ (generatePublicKey store newKp true .ok).1,
      getPrivateKey [] (generatePublicKey store newKp true .ok).1 kp.kid =
        some kp.privateKey) := by
  have hres : (generatePublicKey store newKp true .ok).1 = rotateStore store newKp := rfl
  have hperm : List.Perm (List.insertionSort rotGe (newKp :: store)) (newKp :: store) :=
    List.perm_insertionSort rotGe (newKp :: store)
  have hsort : List.Sorted rotGe (List.insertionSort rotGe (newKp :: store)) :=
    List.sorted_insertionSort rotGe (newKp :: store)
  have htsSorted :
      ((List.insertionSort rotGe (newKp :: store)).map KeyPair.createdAt).Nodup :=
    ((hperm.map KeyPair.createdAt).nodup_iff).mpr hts
  have hstrict := pairwise_gt_of_sorted_nodup hsort htsSorted
  have hsub : (rotateStore store newKp).Sublist (newKp :: store) :=
    List.filter_sublist _
  have hkid' : ((rotateStore store newKp).map KeyPair.kid).Nodup :=
    List.Nodup.sublist (hsub.map KeyPair.kid) hkid
  refine ⟨rfl, ?_, ?_, ?_, ?_⟩
  · rw [hres]
    have hsubset : ∀ k ∈ (rotateStore store newKp).map KeyPair.kid,
        k ∈ (findManyTop3 (newKp :: store)).map KeyPair.kid := by
      intro k hk
      obtain ⟨kp, hkp, rfl⟩ := List.mem_map.mp hk
      have := (List.mem_filter.mp hkp).2
      simpa using this
    calc (rotateStore store newKp).length
        = ((rotateStore store newKp).map KeyPair.kid).length := by
          rw [List.length_map]
      _ = ((rotateStore store newKp).map KeyPair.kid).toFinset.card :=
          (List.toFinset_card_of_nodup hkid').symm
      _ ≤ ((findManyTop3 (newKp :: store)).map KeyPair.kid).toFinset.card := by
          apply Finset.card_le_card
          intro k hkmem
          exact List.mem_toFinset.mpr (hsubset k (List.mem_toFinset.mp hkmem))
      _ ≤ ((findManyTop3 (newKp :: store)).map KeyPair.kid).length :=
          List.toFinset_card_le _
      _ = (findManyTop3 (newKp :: store)).length := by rw [List.length_map]
      _ ≤ 3 := by
          unfold findManyTop3
          simpa using List.length_take_le 3 _
  · intro kp hmem hcount
    rw [hres]
    have hmemS : kp ∈ List.insertionSort rotGe (newKp :: store) :=
      hperm.mem_iff.mpr hmem
    have hcountS : (List.insertionSort rotGe (newKp :: store)).countP
        (fun x => decide (kp.createdAt < x.createdAt)) ≤ 2 := by
      rw [hperm.countP_eq]
      exact hcount
    have htake := mem_take_of_countP_le hstrict hmemS hcountS
    refine List.mem_filter.mpr ⟨hmem, ?_⟩
    exact List.elem_iff.mpr (List.mem_map_of_mem KeyPair.kid htake)
  · intro kp hmem
    rw [hres] at hmem
    obtain ⟨hmemS1, hpred⟩ := List.mem_filter.mp hmem
    have hkidmem : kp.kid ∈ (findManyTop3 (newKp :: store)).map KeyPair.kid :=
      List.elem_iff.mp hpred
    obtain ⟨kp2, hkp2keep, hkk⟩ := List.mem_map.mp hkidmem
    have hkp2s : kp2 ∈ List.insertionSort rotGe (newKp :: store) :=
      (List.take_sublist 3 _).subset hkp2keep
    have hkp2s1 : kp2 ∈ newKp :: store := hperm.mem_iff.mp hkp2s
    have heqk : kp2 = kp := mem_eq_of_kid_nodup hkid hkp2s1 hmemS1 hkk
    have hcountS := countP_le_of_mem_take hstrict (heqk ▸ hkp2keep)
    rw [hperm.countP_eq] at hcountS
    exact hcountS
  · intro kp hmem
    rw [hres] at hmem ⊢
    unfold getPrivateKey
    simp only [List.lookup]
    rw [find?_eq_of_kid_nodup hkid' hmem]

/-- Concrete store for the C6 witness: three earlier rotations. -/
def keyStoreW : List KeyPair :=
  [⟨"k3", "p3", "s3", 3000⟩, ⟨"k2", "p2", "s2", 2000⟩, ⟨"k1", "p1", "s1", 1000⟩]

/-- Key created by the witnessed rotation. -/
def newKeyW : KeyPair := ⟨"k4", "p4", "s4", 4000⟩

/-- Witness for C6 at a store of three earlier keys plus a fresh one. -/
theorem rotation_retains_three_most_recent_resolvable_witness :
    (generatePublicKey keyStoreW newKeyW true .ok).2 = true ∧
    (generatePublicKey keyStoreW newKeyW true .ok).1.length ≤ 3 ∧
    (∀ kp ∈ newKeyW :: keyStoreW,
      (newKeyW :: keyStoreW).countP
        (fun x => decide (kp.createdAt < x.createdAt)) ≤ 2 →
      kp ∈ (generatePublicKey keyStoreW newKeyW true .ok).1) ∧
    (∀ kp ∈ (generatePublicKey keyStoreW newKeyW true .ok).1,
      (newKeyW :: keyStoreW).countP
        (fun x => decide (kp.createdAt < x.createdAt)) ≤ 2) ∧
    (∀ kp ∈ (generatePublicKey keyStoreW newKeyW true .ok).1,
      getPrivateKey [] (generatePublicKey keyStoreW newKeyW true .ok).1 kp.kid =
        some kp.privateKey) :=
  rotation_retains_three_most_recent_resolvable keyStoreW newKeyW
    (by decide) (by decide)

/-! ### Conversion exporter (createCsvAndImportToYahoo, src/unnamed/part_004) -/

/-- Row of the YahooConversion table as read by the exporter. -/
structure ConvRow where
  yclid : String
  amount : Int
  visitedAt : Int
  conversionedAt : Int
  isProcessed : Bool
  orderId : String
deriving DecidableEq

/-- The closed set of destination network types (EndpointKey). -/
inductive EndpointKey where
  | search
  | display
deriving DecidableEq

/-- YCLID_PREFIX of app/constants.ts. -/
def yclidPrefixFor : EndpointKey → String
  | .search => "YSS"
  | .display => "YJAD"

/-- String prefix test, embedding the startsWith filter of the findMany
query. -/
def startsWithStr (s pre : String) : Bool :=
  List.isPrefixOf pre.toList s.toList

/-- Row of the YahooAdAccount table; fields the loop body requires to be
truthy are Options whose none case is skipped. -/
structure YahooAdAccount where
  type : Option EndpointKey
  accountId : Option String
  childAccountId : Option String
  duration : Int
  conversionTitle : Option String
deriving DecidableEq

/-- The YahooAdApplication row as fetched at the start of the run; only the
fields the claims touch. -/
structure YahooAdApplication where
  clientId : String
  accessToken : String
deriving DecidableEq

/-- Outcome of one CSV upload fetch: thrown transport error, a non-OK HTTP
status, an OK JSON response with its errors array, or an OK non-JSON
response. -/
inductive UploadResult where
  | threw
  | httpError (status : Nat)
  | okJson (errors : List String)
  | okOther
deriving DecidableEq

/-- Embedding of the findMany of part_004 lines 63-80: unprocessed rows
whose yclid carries the network prefix, whose visitedAt lies in
[expiredAt, now) and whose conversionedAt lies in [oneHourAgo, now). -/
def selectRecords (dbRows : List ConvRow) (key : EndpointKey)
    (expiredAt oneHourAgo now : Int) : List ConvRow :=
  dbRows.filter (fun r =>
    startsWithStr r.yclid (yclidPrefixFor key) &&
    (decide (expiredAt ≤ r.visitedAt) && decide (r.visitedAt < now)) &&
    (r.isProcessed == false) &&
    (decide (oneHourAgo ≤ r.conversionedAt) && decide (r.conversionedAt < now)))

/-- Effect of the bulk updateMany on one row: isProcessed becomes true
when the yclid belongs to the uploaded batch. -/
def markProcessedRow (yclids : List String) (r : ConvRow) : ConvRow :=
  if yclids.contains r.yclid then { r with isProcessed := true } else r

/-- Embedding of the updateMany of lines 170-173: one bulk update setting
isProcessed true on every row whose yclid is in the uploaded batch. -/
def markProcessed (dbRows : List ConvRow) (yclids : List String) : List ConvRow :=
  dbRows.map (markProcessedRow yclids)

/-- What the loop body did for one account: skipped over missing fields,
skipped because no record matched, or uploaded with the recorded
Authorization header value and whether the batch was marked processed. -/
inductive AccountAction where
  | skippedInvalid
  | skippedEmpty
  | uploaded (authHeader : String) (marked : Bool)
deriving DecidableEq

/-- Embedding of the per-account loop body of part_004 lines 52-175. The
Authorization header is built from the accessToken field of the
application object fetched before the refresh (line 135). A thrown fetch
or a non-OK status hits continue before the updateMany; an OK response
falls through to the updateMany even when its body carries row-level
errors, which are only logged. -/
def processAccount (app : YahooAdApplication) (acct : YahooAdAccount)
    (nowMs : Int) (res : UploadResult) (dbRows : List ConvRow) :
    List ConvRow × AccountAction :=
  match acct.type, acct.accountId, acct.childAccountId, acct.conversionTitle with
  | some key, some _, some _, some _ =>
    if (selectRecords dbRows key (nowMs - acct.duration * 24 * 60 * 60 * 1000)
        (nowMs - 1 * 60 * 60 * 1000) nowMs).isEmpty then (dbRows, .skippedEmpty)
    else
      match res with
      | .threw => (dbRows, .uploaded ("Bearer " ++ app.accessToken) false)
      | .httpError _ => (dbRows, .uploaded ("Bearer " ++ app.accessToken) false)
      | .okJson _ =>
        (markProcessed dbRows
          ((selectRecords dbRows key (nowMs - acct.duration * 24 * 60 * 60 * 1000)
            (nowMs - 1 * 60 * 60 * 1000) nowMs).map ConvRow.yclid),
          .uploaded ("Bearer " ++ app.accessToken) true)
      | .okOther =>
        (markProcessed dbRows
          ((selectRecords dbRows key (nowMs - acct.duration * 24 * 60 * 60 * 1000)
            (nowMs - 1 * 60 * 60 * 1000) nowMs).map ConvRow.yclid),
          .uploaded ("Bearer " ++ app.accessToken) true)
  | _, _, _, _ => (dbRows, .skippedInvalid)

/-- Oracle environment of one exporter run: the access token produced by
getYahooAdToken (none embeds the falsy empty string on failure), the fetch
outcome per account index, and the current time. -/
structure ExportEnv where
  refreshResult : Option String
  uploadRes : Nat → UploadResult
  nowMs : Int

/-- Observable outcome of one run: the token persisted to the
YahooAdApplication row, the per-account actions, and the final rows. -/
structure ExportRun where
  persistedToken : Option String
  actions : List AccountAction
  finalRows : List ConvRow
deriving DecidableEq

/-- Sequential account loop, threading the database rows. -/
def exporterLoop (app : YahooAdApplication) (env : ExportEnv) :
    List YahooAdAccount → Nat → List ConvRow → List ConvRow × List AccountAction
  | [], _, rows => (rows, [])
  | acct :: rest, i, rows =>
    ((exporterLoop app env rest (i + 1)
        (processAccount app acct env.nowMs (env.uploadRes i) rows).1).1,
      (processAccount app acct env.nowMs (env.uploadRes i) rows).2 ::
        (exporterLoop app env rest (i + 1)
          (processAccount app acct env.nowMs (env.uploadRes i) rows).1).2)

/-- Embedding of createCsvAndImportToYahoo: bail out when the application
row, the account list, or the refreshed token is missing; otherwise persist
the refreshed token to the application row (lines 46-49) and run the
per-account loop with the pre-refresh application object. -/
def createCsvAndImportToYahoo (app : Option YahooAdApplication)
    (accounts : Option (List YahooAdAccount)) (env : ExportEnv)
    (dbRows : List ConvRow) : ExportRun :=
  match app with
  | none => ⟨none, [], dbRows⟩
  | some app =>
    match accounts with
    | none => ⟨none, [], dbRows⟩
    | some accounts =>
      match env.refreshResult with
      | none => ⟨none, [], dbRows⟩
      | some newTok =>
        ⟨some newTok, (exporterLoop app env accounts 0 dbRows).2,
          (exporterLoop app env accounts 0 dbRows).1⟩

/-! ### Claims C4 and C9: exporter error handling and token use -/

/-- Application row fetched at the start of the witnessed run, carrying the
pre-refresh access token. -/
def expAppW : YahooAdApplication := ⟨"client1", "oldToken"⟩

/-- A fully configured search-network account with a 30 day window. -/
def expAcctW : YahooAdAccount :=
  ⟨some .search, some "acc1", some "child1", 30, some "cvtitle"⟩

/-- An unprocessed conversion row eligible for the account above at time
1000000000. -/
def expRowW : ConvRow := ⟨"YSS.1.abc", 1000, 999999000, 999999500, false, "123"⟩

/-- C4 counterexample: an upload whose HTTP response is OK but whose JSON
body reports row-level errors still falls through to the bulk updateMany,
so the batch IS marked processed; the claim says no record of the batch is
marked in that case. -/
theorem row_errors_batch_still_marked :
    (processAccount expAppW expAcctW 1000000000
      (.okJson ["E40001 invalid row"]) [expRowW]).2 =
      .uploaded "Bearer oldToken" true ∧
    (processAccount expAppW expAcctW 1000000000
      (.okJson ["E40001 invalid row"]) [expRowW]).1 =
      [{ expRowW with isProcessed := true }] := by
  decide

/-- C4 amended: for a configured account with a non-empty batch, the batch
is marked processed (in one bulk update covering every included record) if
and only if the fetch delivered an OK HTTP response; a thrown fetch or a
non-OK status leaves every row untouched so the batch is retried next run;
row-level errors reported inside an OK response are only logged and do not
prevent the marking. -/
theorem batch_marked_iff_http_ok
    (app : YahooAdApplication) (acct : YahooAdAccount) (nowMs : Int)
    (res : UploadResult) (dbRows : List ConvRow) (key : EndpointKey)
    (aid cid title : String)
    (hty : acct.type = some key) (ha : acct.accountId = some aid)
    (hcld : acct.childAccountId = some cid)
    (ht : acct.conversionTitle = some title)
    (hne : (selectRecords dbRows key (nowMs - acct.duration * 24 * 60 * 60 * 1000)
      (nowMs - 1 * 60 * 60 * 1000) nowMs).isEmpty = false) :
    ((res = .threw ∨ (∃ st, res = .httpError st)) →
      (processAccount app acct nowMs res dbRows).1 = dbRows ∧
      (processAccount app acct nowMs res dbRows).2 =
        .uploaded ("Bearer " ++ app.accessToken) false) ∧
    ((res = .okOther ∨ (∃ errs, res = .okJson errs)) →
      (processAccount app acct nowMs res dbRows).1 =
        markProcessed dbRows ((selectRecords dbRows key
          (nowMs - acct.duration * 24 * 60 * 60 * 1000)
          (nowMs - 1 * 60 * 60 * 1000) nowMs).map ConvRow.yclid) ∧
      (processAccount app acct nowMs res dbRows).2 =
        .uploaded ("Bearer " ++ app.accessToken) true) ∧
    (∀ marked, (processAccount app acct nowMs res dbRows).2 =
        .uploaded ("Bearer " ++ app.accessToken) marked →
      (marked = true ↔ (res = .okOther ∨ ∃ errs, res = .okJson errs))) ∧
    (∀ r ∈ selectRecords dbRows key (nowMs - acct.duration * 24 * 60 * 60 * 1000)
        (nowMs - 1 * 60 * 60 * 1000) nowMs,
      { r with isProcessed := true } ∈
        markProcessed dbRows ((selectRecords dbRows key
          (nowMs - acct.duration * 24 * 60 * 60 * 1000)
          (nowMs - 1 * 60 * 60 * 1000) nowMs).map ConvRow.yclid)) := by
  have hne2 : selectRecords dbRows key
      (nowMs - acct.duration * 24 * 60 * 60 * 1000)
      (nowMs - 3600000) nowMs ≠ [] := by simpa using hne
  refine ⟨?_, ?_, ?_, ?_⟩
  · rintro (rfl | ⟨st, rfl⟩) <;>
      (unfold processAccount; simp [hty, ha, hcld, ht, hne2])
  · rintro (rfl | ⟨errs, rfl⟩) <;>
      (unfold processAccount; simp [hty, ha, hcld, ht, hne2])
  · intro marked hm
    unfold processAccount at hm
    rw [hty, ha, hcld, ht] at hm
    simp [hne2] at hm
    cases res <;> simp_all
  · intro r hr
    have hrdb : r ∈ dbRows := (List.mem_filter.mp hr).1
    have hy : r.yclid ∈ (selectRecords dbRows key
        (nowMs - acct.duration * 24 * 60 * 60 * 1000)
        (nowMs - 1 * 60 * 60 * 1000) nowMs).map ConvRow.yclid :=
      List.mem_map_of_mem ConvRow.yclid hr
    have hcontains : ((selectRecords dbRows key
        (nowMs - acct.duration * 24 * 60 * 60 * 1000)
        (nowMs - 1 * 60 * 60 * 1000) nowMs).map ConvRow.yclid).contains r.yclid
          = true := List.elem_iff.mpr hy
    have hrow : markProcessedRow ((selectRecords dbRows key
        (nowMs - acct.duration * 24 * 60 * 60 * 1000)
        (nowMs - 1 * 60 * 60 * 1000) nowMs).map ConvRow.yclid) r =
        { r with isProcessed := true } := by
      unfold markProcessedRow
      rw [hcontains]
      simp
    unfold markProcessed
    exact hrow ▸ List.mem_map_of_mem (markProcessedRow ((selectRecords dbRows key
      (nowMs - acct.duration * 24 * 60 * 60 * 1000)
      (nowMs - 1 * 60 * 60 * 1000) nowMs).map ConvRow.yclid)) hrdb

/-- Witness for C4 amended at the concrete account, row and an OK
response. -/
theorem batch_marked_iff_http_ok_witness :
    ((UploadResult.okOther = .threw ∨ (∃ st, UploadResult.okOther = .httpError st)) →
      (processAccount expAppW expAcctW 1000000000 .okOther [expRowW]).1 = [expRowW] ∧
      (processAccount expAppW expAcctW 1000000000 .okOther [expRowW]).2 =
        .uploaded ("Bearer " ++ expAppW.accessToken) false) ∧
    ((UploadResult.okOther = .okOther ∨ (∃ errs, UploadResult.okOther = .okJson errs)) →
      (processAccount expAppW expAcctW 1000000000 .okOther [expRowW]).1 =
        markProcessed [expRowW] ((selectRecords [expRowW] .search
          (1000000000 - expAcctW.duration * 24 * 60 * 60 * 1000)
          (1000000000 - 1 * 60 * 60 * 1000) 1000000000).map ConvRow.yclid) ∧
      (processAccount expAppW expAcctW 1000000000 .okOther [expRowW]).2 =
        .uploaded ("Bearer " ++ expAppW.accessToken) true) ∧
    (∀ marked, (processAccount expAppW expAcctW 1000000000 .okOther [expRowW]).2 =
        .uploaded ("Bearer " ++ expAppW.accessToken) marked →
      (marked = true ↔ (UploadResult.okOther = .okOther ∨
        ∃ errs, UploadResult.okOther = .okJson errs))) ∧
    (∀ r ∈ selectRecords [expRowW] .search
        (1000000000 - expAcctW.duration * 24 * 60 * 60 * 1000)
        (1000000000 - 1 * 60 * 60 * 1000) 1000000000,
      { r with isProcessed := true } ∈
        markProcessed [expRowW] ((selectRecords [expRowW] .search
          (1000000000 - expAcctW.duration * 24 * 60 * 60 * 1000)
          (1000000000 - 1 * 60 * 60 * 1000) 1000000000).map ConvRow.yclid)) :=
  batch_marked_iff_http_ok expAppW expAcctW 1000000000 .okOther [expRowW]
    .search "acc1" "child1" "cvtitle" rfl rfl rfl rfl (by decide)

/-- Exporter environment of the C9 run: the refresh call returns a fresh
token and the upload is accepted. -/
def expEnvW : ExportEnv := ⟨some "newToken", fun _ => .okOther, 1000000000⟩

/-- C9 (code bug): the run persists the refreshed token newToken to the
YahooAdApplication row, yet the Authorization header of the upload carries
Bearer oldToken, the accessToken field of the application object fetched
BEFORE the refresh (part_004 line 135) - not the token obtained by the
refresh performed at the start of the run, as the claim (and spec section
4.4) states. -/
theorem upload_uses_pre_refresh_token :
    (createCsvAndImportToYahoo (some expAppW) (some [expAcctW]) expEnvW
      [expRowW]).persistedToken = some "newToken" ∧
    (createCsvAndImportToYahoo (some expAppW) (some [expAcctW]) expEnvW
      [expRowW]).actions = [.uploaded "Bearer oldToken" true] ∧
    "Bearer oldToken" ≠ "Bearer newToken" := by
  decide

/-! ### Claim C10: the client send routine and its retries
(extensions/yahoo-ad-cv-web-pixel/src/index.ts, sendConversionData) -/

/-- MAX_RETRIES of sendConversionData. -/
def MAX_RETRIES : Nat := 3

/-- What one attempt sends: the nonce drawn by crypto.randomUUID for the
payload built in this call, and the PoW token computed in this call. -/
structure PixelAttempt where
  nonce : String
  pow : List Char
deriving DecidableEq

/-- Oracle environment of the pixel: the randomUUID draw, the random salt
and the minute timestamp per attempt index, the crypto builtins, and the
fetch outcome per attempt. -/
structure PixelEnv where
  uuids : Nat → String
  salts : Nat → List Char
  unixMin : Nat → Nat
  sha : List Char → List Nat
  enc64 : List Char → List Char
  fetchOk : Nat → Bool

/-- Embedding of sendConversionData(retryCount): each call rebuilds the
payload with a freshly drawn nonce, re-encrypts it and recomputes the PoW
token before fetching; on a failed fetch it recurses with retryCount + 1
while retryCount < MAX_RETRIES - 1, else returns false. The result pairs
the overall success flag with the list of attempts actually sent. -/
def sendConversionData (env : PixelEnv)
    (powEx : ∀ k, ∃ c, powAccepts env.sha (env.unixMin k) (env.salts k) c)
    (retryCount : Nat) : Bool × List PixelAttempt :=
  if env.fetchOk retryCount then
    (true, [⟨env.uuids retryCount,
      makePow env.sha env.enc64 (env.unixMin retryCount) (env.salts retryCount)
        (powEx retryCount)⟩])
  else if retryCount < MAX_RETRIES - 1 then
    ((sendConversionData env powEx (retryCount + 1)).1,
      ⟨env.uuids retryCount,
        makePow env.sha env.enc64 (env.unixMin retryCount) (env.salts retryCount)
          (powEx retryCount)⟩ :: (sendConversionData env powEx (retryCount + 1)).2)
  else
    (false, [⟨env.uuids retryCount,
      makePow env.sha env.enc64 (env.unixMin retryCount) (env.salts retryCount)
        (powEx retryCount)⟩])
termination_by MAX_RETRIES - retryCount
decreasing_by omega

theorem sendConversionData_attempts (env : PixelEnv)
    (powEx : ∀ k, ∃ c, powAccepts env.sha (env.unixMin k) (env.salts k) c) :
    ∀ (n rc : Nat), MAX_RETRIES - rc ≤ n →
    (sendConversionData env powEx rc).2.map PixelAttempt.nonce =
      (List.range' rc (sendConversionData env powEx rc).2.length).map env.uuids ∧
    (sendConversionData env powEx rc).2.map PixelAttempt.pow =
      (List.range' rc (sendConversionData env powEx rc).2.length).map
        (fun k => makePow env.sha env.enc64 (env.unixMin k) (env.salts k)
          (powEx k)) := by
  intro n
  induction n with
  | zero =>
    intro rc hrc
    have hge : ¬ rc < MAX_RETRIES - 1 := by
      unfold MAX_RETRIES at hrc ⊢
      omega
    rw [sendConversionData]
    by_cases hf : env.fetchOk rc = true <;> simp [hf, hge, List.range']
  | succ n ih =>
    intro rc hrc
    rw [sendConversionData]
    by_cases hf : env.fetchOk rc = true
    · simp [hf, List.range']
    · by_cases hlt : rc < MAX_RETRIES - 1
      · have hrec := ih (rc + 1) (by omega)
        simp only [hf, hlt, if_false, if_true, Bool.false_eq_true, List.map_cons,
          List.length_cons]
        constructor
        · rw [hrec.1]
          rfl
        · rw [hrec.2]
          rfl
      · simp [hf, hlt, List.range']

/-- C10: every retry attempt of the client send routine rebuilds the
payload with a freshly generated nonce (attempt k uses exactly the k-th
randomUUID draw) and recomputes the PoW token from the salt and minute
timestamp of attempt k, so with distinct draws two attempts never share a
nonce; consequently server-side duplicate suppression across the client
retries rests on the order identifier: the step-6 transaction still
reports duplicate for a fresh nonce when a ConversionRecord with the same
orderId already exists. -/
theorem retry_fresh_nonce_dedup_by_order (env : PixelEnv)
    (powEx : ∀ k, ∃ c, powAccepts env.sha (env.unixMin k) (env.salts k) c)
    (hinj : Function.Injective env.uuids) :
    (sendConversionData env powEx 0).2.map PixelAttempt.nonce =
      (List.range' 0 (sendConversionData env powEx 0).2.length).map env.uuids ∧
    (sendConversionData env powEx 0).2.map PixelAttempt.pow =
      (List.range' 0 (sendConversionData env powEx 0).2.length).map
        (fun k => makePow env.sha env.enc64 (env.unixMin k) (env.salts k)
          (powEx k)) ∧
    ((sendConversionData env powEx 0).2.map PixelAttempt.nonce).Nodup ∧
    (∀ (db : Db) (nonce orderId : String), nonce ∉ db.nonces →
      (∃ c ∈ db.convs, c.orderId = orderId) →
      (txStep db nonce orderId).2 = true) := by
  obtain ⟨hn, hp⟩ := sendConversionData_attempts env powEx MAX_RETRIES 0 (by omega)
  refine ⟨hn, hp, ?_, ?_⟩
  · rw [hn]
    exact (List.nodup_range' _ _).map hinj
  · intro db nonce orderId hfresh hex
    unfold txStep
    have hany : db.convs.any (fun c => c.orderId == orderId) = true := by
      rcases hex with ⟨c, hc1, hc2⟩
      simp only [List.any_eq_true]
      exact ⟨c, hc1, by simp [hc2]⟩
    simp [hfresh, hany]

/-- Concrete pixel environment of the C10 witness: the k-th draw is the
decimal rendering of k, every fetch fails so all three attempts are made. -/
def pixelEnvW : PixelEnv :=
  { uuids := fun k => String.mk (natDigits k), salts := fun _ => [],
    unixMin := fun _ => 1, sha := fun _ => [0, 32], enc64 := id,
    fetchOk := fun _ => false }

/-- Every attempt of the witness environment finds its PoW at counter 0. -/
def pixelPowExW :
    ∀ k, ∃ c, powAccepts pixelEnvW.sha (pixelEnvW.unixMin k) (pixelEnvW.salts k) c :=
  fun _ => ⟨0, by show powAccepts pixelEnvW.sha 1 [] 0; decide⟩

/-- Witness for C10 at the concrete environment. -/
theorem retry_fresh_nonce_dedup_by_order_witness :
    (sendConversionData pixelEnvW pixelPowExW 0).2.map
        PixelAttempt.nonce =
      (List.range' 0 (sendConversionData pixelEnvW pixelPowExW
        0).2.length).map pixelEnvW.uuids ∧
    (sendConversionData pixelEnvW pixelPowExW 0).2.map
        PixelAttempt.pow =
      (List.range' 0 (sendConversionData pixelEnvW pixelPowExW
        0).2.length).map
        (fun k => makePow pixelEnvW.sha pixelEnvW.enc64 (pixelEnvW.unixMin k)
          (pixelEnvW.salts k) (pixelPowExW k)) ∧
    ((sendConversionData pixelEnvW pixelPowExW 0).2.map
      PixelAttempt.nonce).Nodup ∧
    (∀ (db : Db) (nonce orderId : String), nonce ∉ db.nonces →
      (∃ c ∈ db.convs, c.orderId = orderId) →
      (txStep db nonce orderId).2 = true) :=
  retry_fresh_nonce_dedup_by_order pixelEnvW pixelPowExW
    (fun a b hab => natDigits_injective (by injection hab))
